import Mathlib

/-!
Verification of the entry store, codec and search engine of the `linkpad`
command-line bookmark manager (`src/linkpad.py`).

The embedding models:
  * an entry (a Python dict with required fields `id`, `url`, `title`,
    `tags`, `created_date` and optional fields `archived`, `archived_date`,
    `extended`, `removed`, `removed_date`, `removed_reason`) as a structure
    whose optional fields are `Option`s;
  * an aware UTC `datetime.datetime` as its instant: microseconds since the
    Unix epoch (`Int`).  All internal dates in the program are normalized to
    UTC (`db_entry_internalize` calls `astimezone(timezone.utc)`, creation
    uses `datetime.now(timezone.utc)`), and Python compares aware datetimes
    by instant, so this representation is faithful for `==`, `sort` and
    `strftime` (whose calendar fields are recovered by `civilFromDays`);
  * Python string operations (`lower`, slicing, `in`) as character-list
    operations on `String.data`;
  * `strftime`/`strptime` as interpreters over the directive strings that
    the program uses (`%Y %m %d %H %M %S %z` and literal characters);
  * fallible operations (`raise`, `sys.exit`) as `Except`/`Option` results.
-/

/-! ### Python string primitives -/

/-- Containment of `needle` as a contiguous sublist of `hay`. -/
def listInfixOf (needle hay : List Char) : Bool :=
  needle.isPrefixOf hay ||
    match hay with
    | [] => false
    | _ :: t => listInfixOf needle t

/-- Python `needle in hay` (substring containment). -/
def strContains (hay needle : String) : Bool :=
  listInfixOf needle.data hay.data

/-- Python `s.lower()`, character-wise lowercasing. -/
def strLower (s : String) : String :=
  ⟨s.data.map Char.toLower⟩

/-- Python `s[:n]`. -/
def strTake (s : String) (n : Nat) : String :=
  ⟨s.data.take n⟩

/-- Python `s[n:]`. -/
def strDrop (s : String) (n : Nat) : String :=
  ⟨s.data.drop n⟩

/-- Python `len(s)`. -/
def strLen (s : String) : Nat :=
  s.data.length

/-- Python `' '.join(l)` generalized to any separator (`sep.join(l)`). -/
def strJoinSep (sep : String) (l : List String) : String :=
  ⟨(l.map String.data).intersperse sep.data |>.flatten⟩

/-! ### Civil calendar conversions

`datetime` stores calendar fields; we store instants and recover the fields
with the standard civil-from-days / days-from-civil conversions (the same
algorithm CPython's `datetime` uses, via proleptic Gregorian ordinals).
-/

/-- Calendar date of a day count relative to 1970-01-01 (proleptic
Gregorian).  Returns `(year, month, day)`. -/
def civilFromDays (z : Int) : Int × Nat × Nat :=
  let zd : Int := z + 719468
  let era : Int := zd / 146097
  let doe : Nat := (zd - era * 146097).toNat
  let yoe : Nat := (doe - doe / 1460 + doe / 36524 - doe / 146096) / 365
  let doy : Nat := doe - (365 * yoe + yoe / 4 - yoe / 100)
  let mp : Nat := (5 * doy + 2) / 153
  let d : Nat := doy - (153 * mp + 2) / 5 + 1
  let m : Nat := if mp < 10 then mp + 3 else mp - 9
  let y : Int := (yoe : Int) + era * 400 + (if m ≤ 2 then 1 else 0)
  (y, m, d)

/-- Day count relative to 1970-01-01 of a calendar date (proleptic
Gregorian). -/
def daysFromCivil (y : Int) (m d : Nat) : Int :=
  let yy : Int := y - (if m ≤ 2 then 1 else 0)
  let era : Int := yy / 400
  let yoe : Nat := (yy - era * 400).toNat
  let mp : Nat := if 2 < m then m - 3 else m + 9
  let doy : Nat := (153 * mp + 2) / 5 + d - 1
  let doe : Nat := 365 * yoe + yoe / 4 - yoe / 100 + doy
  era * 146097 + (doe : Int) - 719468

/-! ### The entry data model -/

/-- One bookmark entry, in internal (in-memory) form.  Date fields hold
microseconds since the Unix epoch, UTC. -/
structure Entry where
  id : String
  url : String
  title : String
  tags : List String
  created_date : Int
  archived : Option Bool := none
  archived_date : Option Int := none
  extended : Option String := none
  removed : Option Bool := none
  removed_date : Option Int := none
  removed_reason : Option String := none
deriving DecidableEq, Repr

/-- One bookmark entry in external (persisted) form: date fields have been
formatted to strings by `db_entry_externalize`. -/
structure ExtEntry where
  id : String
  url : String
  title : String
  tags : List String
  created_date : String
  archived : Option Bool := none
  archived_date : Option String := none
  extended : Option String := none
  removed : Option Bool := none
  removed_date : Option String := none
  removed_reason : Option String := none
deriving DecidableEq, Repr

/-! ### Search engine (`db_entry_search_match`, `db_entry_list_search`) -/

/-- Characters allowed in a URL scheme (`urllib.parse.scheme_chars`). -/
def scheme_char (c : Char) : Bool :=
  c.isAlphanum || c == '+' || c == '-' || c == '.'

/-- The `netloc` component of `urllib.parse.urlsplit(url)`: strip a valid
`scheme:` head, then, if the remainder starts with `//`, the host part runs
up to the first `/`, `?` or `#`. -/
def urlsplit_netloc (url : String) : String :=
  let l := url.data
  let i := l.findIdx (fun c => c == ':')
  let rest : List Char :=
    if 0 < i ∧ i < l.length ∧ (match l.head? with
        | some c => c.isAlpha
        | none => false) = true ∧ (l.take i).all scheme_char
    then l.drop (i + 1) else l
  if rest.take 2 = ['/', '/'] then
    ⟨(rest.drop 2).takeWhile (fun c => !(c == '/' || c == '?' || c == '#'))⟩
  else ""

/-- `db_entry_search_match(entry, search_arg)`: dispatch on a recognized
scope marker at the head of the term, else free-text match over the
concatenation of id, title, url and the space-joined tags. -/
def db_entry_search_match (entry : Entry) (search_arg : String) : Bool :=
  if strTake search_arg 6 = "title:" then
    let val := strDrop search_arg 6
    if 0 < strLen val then strContains (strLower entry.title) (strLower val)
    else strLen entry.title == 0
  else if strTake search_arg 4 = "tag:" then
    let val := strDrop search_arg 4
    if 0 < strLen val then
      entry.tags.any (fun tag => strContains (strLower tag) (strLower val))
    else entry.tags.length == 0
  else if strTake search_arg 5 = "site:" then
    let val := strDrop search_arg 5
    let url_domain := urlsplit_netloc entry.url
    if 0 < strLen val then strContains (strLower url_domain) (strLower val)
    else strLen url_domain == 0
  else if strTake search_arg 4 = "url:" then
    let val := strDrop search_arg 4
    if 0 < strLen val then strContains (strLower entry.url) (strLower val)
    else strLen entry.url == 0
  else if strTake search_arg 3 = "id:" then
    let val := strDrop search_arg 3
    if 0 < strLen val then
      strContains (strLower (strTake entry.id (strLen val))) (strLower val)
    else strLen entry.id == 0
  else if strTake search_arg 9 = "archived:" then
    let val := strLower (strDrop search_arg 9) = "true"
    entry.archived.getD false = decide val
  else
    let string := entry.id ++ " " ++ entry.title ++ " " ++ entry.url ++ " " ++
      strJoinSep " " entry.tags
    strContains (strLower string) (strLower search_arg)

/-- The AND terms of a search-argument list: terms starting with `+`, the
marker stripped (`db_entry_list_search`'s parse loop).  A term is classified
by its first character; the program indexes `arg[0]`, so terms are assumed
nonempty (an empty term raises `IndexError` in Python). -/
def searchTermsAll (search_args : List String) : List String :=
  search_args.filterMap fun arg =>
    match arg.data with
    | '+' :: rest => some ⟨rest⟩
    | _ => none

/-- The NOT terms of a search-argument list: terms starting with `-`, the
marker stripped. -/
def searchTermsNot (search_args : List String) : List String :=
  search_args.filterMap fun arg =>
    match arg.data with
    | '-' :: rest => some ⟨rest⟩
    | _ => none

/-- The OR terms of a search-argument list: terms starting with neither `+`
nor `-`, kept verbatim. -/
def searchTermsAny (search_args : List String) : List String :=
  search_args.filterMap fun arg =>
    match arg.data with
    | '+' :: _ => none
    | '-' :: _ => none
    | _ => some arg

/-- The per-entry filter of `db_entry_list_search`: hide removed entries
unless `include_removed`; skip on any NOT-term match; require all AND terms
when present; require some OR term when present. -/
def db_entry_search_keep (entry : Entry) (search_args : List String)
    (include_removed : Bool) : Bool :=
  (!(entry.removed.getD false) || include_removed) &&
  (let nl := searchTermsNot search_args
   nl.isEmpty || !(nl.any fun arg => db_entry_search_match entry arg)) &&
  (let al := searchTermsAll search_args
   al.isEmpty || (al.all fun arg => db_entry_search_match entry arg)) &&
  (let yl := searchTermsAny search_args
   yl.isEmpty || (yl.any fun arg => db_entry_search_match entry arg))

/-- The list of entries `db_entry_list_search` accumulates before the
empty-result check. -/
def db_entry_search_filter (db_entry_list : List Entry)
    (search_args : List String) (include_removed : Bool) : List Entry :=
  db_entry_list.filter fun entry =>
    db_entry_search_keep entry search_args include_removed

/-- `db_entry_list_search(db_entry_list, search_args, include_removed)`:
the filtered entries, or the `None` sentinel when no entry survives. -/
def db_entry_list_search (db_entry_list : List Entry)
    (search_args : List String) (include_removed : Bool) :
    Option (List Entry) :=
  let entry_list := db_entry_search_filter db_entry_list search_args
    include_removed
  if entry_list.isEmpty then none else some entry_list




/-! ### Store: merge (`db_entry_list_update`) -/

/-- The change test of `db_entry_list_update`: its two loops flag a change
when a key is present on one side only or when the two values differ.  The
required fields are always present, and on the optional fields `Option`
equality captures presence-or-value differences in both directions. -/
def db_entry_changed (old_entry new_entry : Entry) : Bool :=
  old_entry.id != new_entry.id ||
  old_entry.url != new_entry.url ||
  old_entry.title != new_entry.title ||
  old_entry.tags != new_entry.tags ||
  old_entry.created_date != new_entry.created_date ||
  old_entry.archived != new_entry.archived ||
  old_entry.archived_date != new_entry.archived_date ||
  old_entry.extended != new_entry.extended ||
  old_entry.removed != new_entry.removed ||
  old_entry.removed_date != new_entry.removed_date ||
  old_entry.removed_reason != new_entry.removed_reason

/-- The inner scan of `db_entry_list_update` for one new entry: replace the
first entry carrying the same id (replacement happens only when the entry
changed), or append at the end when no entry matches.  The flag reports
whether the new entry was recorded in `changed_list`. -/
def db_entry_update_scan : List Entry → Entry → List Entry × Bool
  | [], new_entry => ([new_entry], true)
  | old_entry :: rest, new_entry =>
    if old_entry.id = new_entry.id then
      if db_entry_changed old_entry new_entry then (new_entry :: rest, true)
      else (old_entry :: rest, false)
    else
      (old_entry :: (db_entry_update_scan rest new_entry).1,
        (db_entry_update_scan rest new_entry).2)

/-- The outer loop of `db_entry_list_update`: process the new entries in
order, accumulating the changed subset in processing order. -/
def db_entry_update_go : List Entry → List Entry → List Entry × List Entry
  | db_entry_list, [] => (db_entry_list, [])
  | db_entry_list, new_entry :: rest =>
    ((db_entry_update_go (db_entry_update_scan db_entry_list new_entry).1
        rest).1,
      (if (db_entry_update_scan db_entry_list new_entry).2 then [new_entry]
       else []) ++
        (db_entry_update_go (db_entry_update_scan db_entry_list new_entry).1
          rest).2)

/-- `db_entry_list_update(db_entry_list, entry_list)`: add/update entries in
the database.  The Python function mutates `db_entry_list` in place and
returns the changed subset (or `None` when nothing changed); we return the
post-state of the list together with that result. -/
def db_entry_list_update (db_entry_list entry_list : List Entry) :
    List Entry × Option (List Entry) :=
  ((db_entry_update_go db_entry_list entry_list).1,
    if (db_entry_update_go db_entry_list entry_list).2.isEmpty then none
    else some (db_entry_update_go db_entry_list entry_list).2)

/-- Specification of the merge's replacement action: the entry that ends up
at an existing entry's position — the first update carrying its id, if any,
else the entry itself. -/
def mergeSubst (entry_list : List Entry) (old : Entry) : Entry :=
  match entry_list.find? (fun u => u.id == old.id) with
  | some u => u
  | none => old

/-- Specification of the merge's append action: the updates whose id matches
no entry of the database, in update order. -/
def mergeFresh (db_entry_list entry_list : List Entry) : List Entry :=
  entry_list.filter (fun u => db_entry_list.all (fun e => !(e.id == u.id)))

/-! ### `strftime` / `strptime`

The program formats and parses dates with `datetime.strftime` /
`datetime.strptime` over the two fixed format strings
`%Y-%m-%dT%H:%M:%SZ%z` (persisted form) and `%Y-%m-%d %H:%M:%S %z`
(edit-document form).  The interpreters below cover the directives those
format strings use (`%Y %m %d %H %M %S %z`, `%%`, literal characters);
other directives are not used by the program.
-/

/-- The decimal digit character of `n % 10`. -/
def digitChar10 (n : Nat) : Char :=
  Char.ofNat (48 + n % 10)

/-- Zero-padded two-digit rendering of `n` (truncates above 99, which no
`datetime` field reaches). -/
def natPad2 (n : Nat) : List Char :=
  [digitChar10 (n / 10), digitChar10 n]

/-- Zero-padded four-digit rendering of `n` (truncates above 9999; a
`datetime` year is at most 9999). -/
def natPad4 (n : Nat) : List Char :=
  natPad2 (n / 100) ++ natPad2 n

/-- `%Y` rendering of a year.  A Python `datetime` year is in `1..9999`;
the negative branch keeps the function total. -/
def intPad4 (y : Int) : List Char :=
  if y < 0 then '-' :: natPad4 y.natAbs else natPad4 y.toNat

/-- Numeric value of a digit character. -/
def digitVal (c : Char) : Nat :=
  c.toNat - 48

/-- Numeric value of a digit string. -/
def natOfDigits (ds : List Char) : Nat :=
  ds.foldl (fun acc c => 10 * acc + digitVal c) 0

/-- Greedy parse of one to `maxLen` leading digits (the `\d` patterns of
CPython `_strptime`). -/
def parseDigits (maxLen : Nat) (s : List Char) : Option (Nat × List Char) :=
  let ds := (s.takeWhile Char.isDigit).take maxLen
  if ds.isEmpty then none
  else some (natOfDigits ds, s.drop ds.length)

/-- The `HHMM` or `HH:MM` tail of a `%z` offset, in minutes; rejected at
24 hours or more (the `datetime.timezone` constructor bound). -/
def parseOffTail (s : List Char) : Option (Nat × List Char) :=
  match s with
  | h1 :: h2 :: rest =>
    if h1.isDigit ∧ h2.isDigit then
      let rest2 := if rest.head? = some ':' then rest.tail else rest
      match rest2 with
      | m1 :: m2 :: r2 =>
        if m1.isDigit ∧ m2.isDigit then
          let v := natOfDigits [h1, h2] * 60 + natOfDigits [m1, m2]
          if v < 1440 then some (v, r2) else none
        else none
      | _ => none
    else none
  | _ => none

/-- The calendar/clock fields collected by `strptime`, with CPython's
defaults, plus the `%z` UTC offset in minutes. -/
structure Strp where
  y : Nat := 1900
  m : Nat := 1
  d : Nat := 1
  hh : Nat := 0
  mi : Nat := 0
  ss : Nat := 0
  off : Int := 0
deriving DecidableEq, Repr

/-- The `%z` body: a sign followed by `HH[:]MM`, or a literal `Z`
(UTC). -/
def parseZOff : List Char → Option (Int × List Char)
  | '+' :: s2 => (parseOffTail s2).map fun vr => ((vr.1 : Int), vr.2)
  | '-' :: s2 => (parseOffTail s2).map fun vr => (-(vr.1 : Int), vr.2)
  | 'Z' :: s2 => some (0, s2)
  | _ => none

/-- The directive loop of `strptime`: each directive consumes greedily from
the input; a literal character must match exactly; leftover input is an
error. -/
def pyStrptimeRun : List Char → List Char → Strp → Option Strp
  | [], [], acc => some acc
  | [], _ :: _, _ => none
  | '%' :: dir :: fr, s, acc =>
    if dir = 'Y' then
      match parseDigits 4 s with
      | some (n, s2) => pyStrptimeRun fr s2 { acc with y := n }
      | none => none
    else if dir = 'm' then
      match parseDigits 2 s with
      | some (n, s2) => pyStrptimeRun fr s2 { acc with m := n }
      | none => none
    else if dir = 'd' then
      match parseDigits 2 s with
      | some (n, s2) => pyStrptimeRun fr s2 { acc with d := n }
      | none => none
    else if dir = 'H' then
      match parseDigits 2 s with
      | some (n, s2) => pyStrptimeRun fr s2 { acc with hh := n }
      | none => none
    else if dir = 'M' then
      match parseDigits 2 s with
      | some (n, s2) => pyStrptimeRun fr s2 { acc with mi := n }
      | none => none
    else if dir = 'S' then
      match parseDigits 2 s with
      | some (n, s2) => pyStrptimeRun fr s2 { acc with ss := n }
      | none => none
    else if dir = 'z' then
      match parseZOff s with
      | some (v, s3) => pyStrptimeRun fr s3 { acc with off := v }
      | none => none
    else if dir = '%' then
      if s.head? = some '%' then pyStrptimeRun fr s.tail acc else none
    else none
  | fc :: fr, s, acc =>
    match s with
    | sc :: sr => if sc = fc then pyStrptimeRun fr sr acc else none
    | [] => none

/-- The `datetime` constructor range checks applied by `strptime` (CPython
additionally rejects a day beyond the month's length; `strftime` output
never carries one). -/
def Strp.rangeOk (p : Strp) : Bool :=
  1 ≤ p.y && p.y ≤ 9999 && 1 ≤ p.m && p.m ≤ 12 && 1 ≤ p.d && p.d ≤ 31 &&
  p.hh ≤ 23 && p.mi ≤ 59 && p.ss ≤ 59

/-- µs-instant (UTC) of a parsed aware datetime: the fields interpreted at
their `%z` offset, i.e. `strptime(..).astimezone(timezone.utc)`. -/
def Strp.instantUtc (p : Strp) : Int :=
  (daysFromCivil (p.y : Int) p.m p.d * 86400 +
    (p.hh : Int) * 3600 + (p.mi : Int) * 60 + (p.ss : Int) - p.off * 60) *
    1000000

/-- `datetime.strptime(s, fmt).astimezone(timezone.utc)` as a UTC µs
instant; `none` models `ValueError`. -/
def pyStrptimeUtc (datetime_format s : String) : Option Int :=
  (pyStrptimeRun datetime_format.data s.data {}).bind fun p =>
    if p.rangeOk then some p.instantUtc else none

/-- The directive loop of `strftime` over precomputed fields. -/
def pyStrftimeRun (fmt : List Char) (y : Int) (m d hh mi ss : Nat)
    (off : Int) : List Char :=
  match fmt with
  | [] => []
  | '%' :: dir :: fr =>
    (if dir = 'Y' then intPad4 y
     else if dir = 'm' then natPad2 m
     else if dir = 'd' then natPad2 d
     else if dir = 'H' then natPad2 hh
     else if dir = 'M' then natPad2 mi
     else if dir = 'S' then natPad2 ss
     else if dir = 'z' then
       (if off < 0 then '-' else '+') ::
         (natPad2 (off.natAbs / 60) ++ natPad2 (off.natAbs % 60))
     else if dir = '%' then ['%']
     else ['%', dir]) ++ pyStrftimeRun fr y m d hh mi ss off
  | c :: fr => c :: pyStrftimeRun fr y m d hh mi ss off

/-- `strftime(fmt)` on the aware datetime of instant `usec` (µs since the
epoch, UTC) expressed at UTC offset `off` minutes (`astimezone`). -/
def pyStrftime (datetime_format : String) (off usec : Int) : String :=
  let total := usec + off * 60000000
  let sec := total / 1000000
  let days := sec / 86400
  let sod := (sec % 86400).toNat
  let ymd := civilFromDays days
  ⟨pyStrftimeRun datetime_format.data ymd.1 ymd.2.1 ymd.2.2
    (sod / 3600) (sod % 3600 / 60) (sod % 60) off⟩

/-- The day count (relative to the epoch) that `pyStrftime` renders for
instant `usec` at offset `off`. -/
def strfDays (off usec : Int) : Int :=
  (usec + off * 60000000) / 1000000 / 86400

/-- The second-of-day that `pyStrftime` renders for instant `usec` at
offset `off`. -/
def strfSod (off usec : Int) : Nat :=
  (((usec + off * 60000000) / 1000000) % 86400).toNat

/-- The year that `pyStrftime` renders for instant `usec` at offset
`off`. -/
def strfYear (off usec : Int) : Int :=
  (civilFromDays (strfDays off usec)).1

/-- A date value within the model's faithful range: a whole second (the
formats carry no `%f`, so `strftime` truncates microseconds) whose
rendered year fits `%Y`'s four digits (a Python `datetime` year always
does). -/
def dateFmtOk (off usec : Int) : Prop :=
  usec % 1000000 = 0 ∧ 1 ≤ strfYear off usec ∧ strfYear off usec ≤ 9999

/-! ### Codec (`db_entry_externalize`, `db_entry_internalize`) -/

/-- The default persisted date format of `db_entry_externalize` and
`db_entry_internalize`. -/
def DB_DATETIME_FORMAT : String := "%Y-%m-%dT%H:%M:%SZ%z"

/-- The date format of the user-edit document (`db_entry_to_editdoc`). -/
def EDITDOC_DATETIME_FORMAT : String := "%Y-%m-%d %H:%M:%S %z"

/-- `db_entry_externalize(entry, datetime_format, datetime_as_local)`: format
the date fields (`created_date`, `archived_date`, `removed_date`) as
strings, at the local UTC offset (`local_offset` minutes, modelling
`astimezone(tz=None)`) when `datetime_as_local`, else at UTC. -/
def db_entry_externalize (entry : Entry) (datetime_format : String)
    (datetime_as_local : Bool) (local_offset : Int) : ExtEntry :=
  let fmtDate := fun usec =>
    pyStrftime datetime_format
      (if datetime_as_local then local_offset else 0) usec
  { id := entry.id, url := entry.url, title := entry.title,
    tags := entry.tags,
    created_date := fmtDate entry.created_date,
    archived := entry.archived,
    archived_date := entry.archived_date.map fmtDate,
    extended := entry.extended,
    removed := entry.removed,
    removed_date := entry.removed_date.map fmtDate,
    removed_reason := entry.removed_reason }

/-- The per-field action of `db_entry_internalize_trim`: an optional field
holding an empty string is dropped (`del entry[field]`). -/
def optStrTrim (v : Option String) : Option String :=
  if v = some "" then none else v

/-- `db_entry_internalize_trim(entry)`: drop the optional fields that hold
an empty string (`archived` and `removed` hold booleans, so the `type is
str` test skips them). -/
def db_entry_internalize_trim (entry : ExtEntry) : ExtEntry :=
  { entry with
    archived_date := optStrTrim entry.archived_date,
    extended := optStrTrim entry.extended,
    removed_date := optStrTrim entry.removed_date,
    removed_reason := optStrTrim entry.removed_reason }

/-- The per-field date parse of `db_entry_internalize`: an absent optional
date stays absent, a present one is parsed (`none` models `ValueError`). -/
def optDateParse (datetime_format : String) : Option String → Option (Option Int)
  | none => some none
  | some s => (pyStrptimeUtc datetime_format s).map some

/-- `db_entry_internalize(entry, datetime_format)`: trim empty optional
fields, then parse each date field and normalize it to UTC; `none` models
the `ValueError` a malformed date raises. -/
def db_entry_internalize (entry : ExtEntry) (datetime_format : String) :
    Option Entry :=
  let entry2 := db_entry_internalize_trim entry
  (pyStrptimeUtc datetime_format entry2.created_date).bind fun cd =>
  (optDateParse datetime_format entry2.archived_date).bind fun ad =>
  (optDateParse datetime_format entry2.removed_date).bind fun rd =>
  some { id := entry2.id, url := entry2.url, title := entry2.title,
         tags := entry2.tags, created_date := cd,
         archived := entry2.archived, archived_date := ad,
         extended := entry2.extended, removed := entry2.removed,
         removed_date := rd, removed_reason := entry2.removed_reason }

/-! ### Store (`db_save_db`, `db_entry_get`, `db_entry_add`) -/

/-- `db_save_db(db_entry_list)`: the sequence of records written to the
database file — entries sorted by `created_date` ascending (Python's
stable `sorted`), each externalized with the default persisted format
(each on its own line of a JSON array; the JSON encoding itself is not
modelled). -/
def db_save_db (db_entry_list : List Entry) : List ExtEntry :=
  (List.insertionSort (fun a b => a.created_date ≤ b.created_date)
      db_entry_list).map
    (fun entry => db_entry_externalize entry DB_DATETIME_FORMAT false 0)

/-- `db_entry_get(db_entry_list, url)`: the entry with the given url, or
`none`; an internal-consistency error when several entries match. -/
def db_entry_get (db_entry_list : List Entry) (url : String) :
    Except String (Option Entry) :=
  let url_matches := db_entry_list.filter (fun entry => entry.url == url)
  if 1 < url_matches.length then
    Except.error
      ("Internal Error: found multiple matching entries for url " ++ url)
  else Except.ok url_matches.head?

/-- `db_entry_add(db_entry_list, url, title, tags, extended,
use_editor=False)`.  The generated uuid (`db_entry_generate_id`), the
creation instant (`datetime.now(timezone.utc)`) and the fetched page title
(`page_title(url)`, used only when no title is supplied) are external
inputs of the model; the `use_editor=True` path hands the entry to the
interactive-editor collaborator and is out of scope. -/
def db_entry_add (db_entry_list : List Entry) (url : String)
    (title : Option String) (tags : Option (List String))
    (extended : Option String) (new_id : String) (now_usec : Int)
    (fetched_title : String) : Except String (List Entry) :=
  match db_entry_get db_entry_list url with
  | Except.error e => Except.error e
  | Except.ok (some _) =>
    Except.error ("Error: entry already exists for url " ++ url)
  | Except.ok none =>
    Except.ok
      [{ id := new_id, url := url,
         title := match title with
           | some t => t
           | none => fetched_title,
         tags := List.insertionSort (fun a b => a ≤ b)
           (match tags with
             | some ts => ts
             | none => []).eraseDups,
         created_date := now_usec,
         extended := some (match extended with
           | some e => e
           | none => "") }]

/-! ### Edit documents (`db_entry_to_editdoc`) and the dict-level codec

`db_entry_externalize` operates on a Python dict (an entry or an
`OrderedDict` edit document) and reassigns its date fields **in place**,
returning the same object; the caller `db_save_db` passes a
`copy.deepcopy`.  The dict-level model below represents such a dict as an
ordered association list of tagged values; the function's result is also
the post-state of its argument.
-/

/-- A value held by an entry dict: a string, a tag list, a boolean, or an
aware UTC datetime (µs instant). -/
inductive EVal where
  | vstr : String → EVal
  | vtags : List String → EVal
  | vbool : Bool → EVal
  | vdate : Int → EVal
deriving DecidableEq, Repr

/-- An entry dict / `OrderedDict` edit document: an ordered association
list. -/
abbrev EntryDoc := List (String × EVal)

/-- Dict-level `db_entry_externalize`: format each date field in place (a
non-datetime value in a date field would raise `AttributeError` in Python;
the model leaves it unchanged — unreachable on real entries).  The result
is simultaneously the post-state of the argument dict. -/
def db_entry_externalize_doc (entry : EntryDoc) (datetime_format : String)
    (datetime_as_local : Bool) (local_offset : Int) : EntryDoc :=
  entry.map fun kv =>
    if kv.1 = "created_date" ∨ kv.1 = "archived_date" ∨
        kv.1 = "removed_date" then
      match kv.2 with
      | EVal.vdate usec =>
        (kv.1, EVal.vstr (pyStrftime datetime_format
          (if datetime_as_local then local_offset else 0) usec))
      | v => (kv.1, v)
    else kv

/-- The required entry fields (`DB_ENTRY_REQUIRED_FIELDS`). -/
def DB_ENTRY_REQUIRED_FIELDS : List String :=
  ["id", "url", "title", "tags", "created_date"]

/-- The optional entry fields (`DB_ENTRY_OPTIONAL_FIELDS`). -/
def DB_ENTRY_OPTIONAL_FIELDS : List String :=
  ["archived", "archived_date", "extended", "removed", "removed_date",
   "removed_reason"]

/-- `DB_ENTRY_USEREDIT_FIELDS = copy.deepcopy(DB_ENTRY_REQUIRED_FIELDS)`:
the user-editable fields are exactly the required fields — including
`id`. -/
def DB_ENTRY_USEREDIT_FIELDS : List String :=
  DB_ENTRY_REQUIRED_FIELDS

/-- Python `entry[field]` with the `field in entry` presence test: required
fields are always present, optional fields when set. -/
def entryFieldGet (entry : Entry) (field : String) : Option EVal :=
  if field = "id" then some (EVal.vstr entry.id)
  else if field = "url" then some (EVal.vstr entry.url)
  else if field = "title" then some (EVal.vstr entry.title)
  else if field = "tags" then some (EVal.vtags entry.tags)
  else if field = "created_date" then some (EVal.vdate entry.created_date)
  else if field = "archived" then entry.archived.map EVal.vbool
  else if field = "archived_date" then entry.archived_date.map EVal.vdate
  else if field = "extended" then entry.extended.map EVal.vstr
  else if field = "removed" then entry.removed.map EVal.vbool
  else if field = "removed_date" then entry.removed_date.map EVal.vdate
  else if field = "removed_reason" then entry.removed_reason.map EVal.vstr
  else none

/-- `db_entry_to_editdoc(entry, all_fields)`: the ordered document of the
selected fields present in the entry, then dates formatted for humans
(local time, `%Y-%m-%d %H:%M:%S %z`). -/
def db_entry_to_editdoc (entry : Entry) (all_fields : Bool)
    (local_offset : Int) : EntryDoc :=
  let fields := if all_fields then
      DB_ENTRY_REQUIRED_FIELDS ++ DB_ENTRY_OPTIONAL_FIELDS
    else DB_ENTRY_USEREDIT_FIELDS
  let doc := fields.filterMap fun field =>
    (entryFieldGet entry field).map fun v => (field, v)
  db_entry_externalize_doc doc EDITDOC_DATETIME_FORMAT true local_offset

/-! ### Sample entries -/

/-- Sample entries from the spec's search-composition property:
`A` is tagged `x`. -/
def entryA : Entry :=
  { id := "a1", url := "http://a/", title := "Alpha", tags := ["x"],
    created_date := 0 }

/-- Sample entry `B`, tagged `y`. -/
def entryB : Entry :=
  { id := "b2", url := "http://b/", title := "Beta", tags := ["y"],
    created_date := 1000000 }

/-- Sample entry `C`, tagged both `x` and `y`. -/
def entryC : Entry :=
  { id := "c3", url := "http://c/", title := "Gamma", tags := ["x", "y"],
    created_date := 2000000 }

/-- Sample entry whose creation instant carries a sub-second component
(half a second past the epoch). -/
def entryMicro : Entry :=
  { id := "m1", url := "http://m/", title := "Micro", tags := [],
    created_date := 500000 }

/-- Sample entry with whole-second dates, an archival date, an empty
`extended` and a removal reason. -/
def entrySec : Entry :=
  { id := "s1", url := "http://s/", title := "Sec", tags := ["x"],
    created_date := 0, archived := some true,
    archived_date := some 86400000000, extended := some "",
    removed_reason := some "note" }

/-- The entry that `db_entry_add` builds for a fresh url with no
`extended` argument. -/
def entryNoEdit : Entry :=
  { id := "id1", url := "http://x/", title := "T", tags := [],
    created_date := 0, extended := some "" }

/-- A sample entry dict with one date field. -/
def docSample : EntryDoc :=
  [("id", EVal.vstr "a1"), ("url", EVal.vstr "http://a/"),
   ("created_date", EVal.vdate 0)]

/-! ### Search engine lemmas -/

theorem listInfixOf_iff (needle hay : List Char) :
    listInfixOf needle hay = true ↔ needle <:+: hay := by
  induction hay with
  | nil =>
    rw [listInfixOf]
    simp [List.isPrefixOf_iff_prefix, List.infix_nil, List.prefix_nil]
  | cons a t ih =>
    rw [listInfixOf]
    simp only [Bool.or_eq_true, List.isPrefixOf_iff_prefix, ih,
      List.infix_cons_iff]

/-- The `None` sentinel unfolded: feeding the result of
`db_entry_list_search` to `Option.getD []` yields the filtered list. -/
theorem db_entry_list_search_getD (db_entry_list : List Entry)
    (search_args : List String) (include_removed : Bool) :
    (db_entry_list_search db_entry_list search_args include_removed).getD []
      = db_entry_search_filter db_entry_list search_args include_removed := by
  unfold db_entry_list_search
  by_cases h :
      (db_entry_search_filter db_entry_list search_args include_removed).isEmpty
  · rw [if_pos h]
    exact (List.isEmpty_iff.mp h).symm
  · rw [if_neg h]
    rfl


/-- A guarded universally-quantified clause: the empty-list guard is
redundant. -/
theorem nil_or_forall {l : List String} {p : String → Prop} :
    (l = [] ∨ ∀ t ∈ l, p t) ↔ ∀ t ∈ l, p t := by
  constructor
  · rintro (rfl | h)
    · intro t ht
      exact absurd ht (List.not_mem_nil t)
    · exact h
  · exact Or.inr

/-- C1: the search filter classifies each (nonempty) term by its first
character (`+` AND, `-` NOT, otherwise OR) and keeps an entry iff it is
visible (not removed, unless `include_removed`), matches no NOT term,
matches all AND terms, and matches at least one OR term when any OR terms
are present; in particular, on entries `A{tags:[x]}`, `B{tags:[y]}`,
`C{tags:[x,y]}`, searching `+x +y` returns only `C`, `x y` returns
`A, B, C`, and `x -y` returns only `A`. -/
theorem C1_search_composition :
    (∀ (db : List Entry) (args : List String) (inc : Bool) (e : Entry),
      (∀ a ∈ args, a ≠ "") →
      (e ∈ (db_entry_list_search db args inc).getD [] ↔
        e ∈ db ∧
        (e.removed.getD false = false ∨ inc = true) ∧
        (∀ t ∈ searchTermsNot args, db_entry_search_match e t = false) ∧
        (∀ t ∈ searchTermsAll args, db_entry_search_match e t = true) ∧
        (searchTermsAny args = [] ∨
          ∃ t ∈ searchTermsAny args, db_entry_search_match e t = true))) ∧
    db_entry_list_search [entryA, entryB, entryC] ["+x", "+y"] false
      = some [entryC] ∧
    db_entry_list_search [entryA, entryB, entryC] ["x", "y"] false
      = some [entryA, entryB, entryC] ∧
    db_entry_list_search [entryA, entryB, entryC] ["x", "-y"] false
      = some [entryA] := by
  refine ⟨?_, by decide, by decide, by decide⟩
  intro db args inc e _h
  rw [db_entry_list_search_getD, db_entry_search_filter, List.mem_filter]
  simp only [db_entry_search_keep, Bool.and_eq_true, Bool.or_eq_true,
    Bool.not_eq_true', List.isEmpty_iff, List.any_eq_true, List.all_eq_true,
    List.any_eq_false, Bool.not_eq_true]
  simp only [nil_or_forall]
  tauto

theorem C1_search_composition_witness :
    (∀ a ∈ (["x"] : List String), a ≠ "") ∧
    (entryA ∈ (db_entry_list_search [entryA] ["x"] false).getD [] ↔
      entryA ∈ [entryA] ∧
      (entryA.removed.getD false = false ∨ false = true) ∧
      (∀ t ∈ searchTermsNot ["x"], db_entry_search_match entryA t = false) ∧
      (∀ t ∈ searchTermsAll ["x"], db_entry_search_match entryA t = true) ∧
      (searchTermsAny ["x"] = [] ∨
        ∃ t ∈ searchTermsAny ["x"], db_entry_search_match entryA t = true)) :=
  ⟨by decide, C1_search_composition.1 [entryA] ["x"] false entryA (by decide)⟩

theorem strContains_eq_of_length {hay needle : String}
    (h : needle.data.length = hay.data.length) :
    strContains hay needle = true ↔ needle = hay := by
  rw [strContains, listInfixOf_iff]
  constructor
  · intro hin
    exact String.ext (hin.eq_of_length h)
  · rintro rfl
    exact List.infix_refl _

theorem strContains_length_le {hay needle : String}
    (h : strContains hay needle = true) :
    needle.data.length ≤ hay.data.length :=
  ((listInfixOf_iff needle.data hay.data).mp h).length_le

/-- C9: `db_entry_list_search` returns the `None` sentinel exactly when no
entry survives the filters, and otherwise the (necessarily non-empty)
filtered list. -/
theorem C9_search_none_sentinel (db_entry_list : List Entry)
    (search_args : List String) (include_removed : Bool) :
    db_entry_list_search db_entry_list search_args include_removed =
      if db_entry_search_filter db_entry_list search_args include_removed = []
      then none
      else some
        (db_entry_search_filter db_entry_list search_args include_removed) := by
  unfold db_entry_list_search
  by_cases h :
      (db_entry_search_filter db_entry_list search_args include_removed).isEmpty
  · rw [if_pos h, if_pos (List.isEmpty_iff.mp h)]
  · rw [if_neg h, if_neg (fun hc => h (List.isEmpty_iff.mpr hc))]

/-- C8: the scoped term `id:P` with nonempty pattern `P` matches an entry
iff `P`, lowercased, equals the lowercased first `len P` characters of the
entry id (a prefix match, requiring the id to be at least that long); the
bare term `id:` matches no entry with a nonempty id. -/
theorem C8_id_scoped_match :
    (∀ (e : Entry) (P : String), P ≠ "" →
      (db_entry_search_match e ("id:" ++ P) = true ↔
        strLen P ≤ strLen e.id ∧
        strLower P = strLower (strTake e.id (strLen P)))) ∧
    (∀ e : Entry, e.id ≠ "" → db_entry_search_match e "id:" = false) := by
  constructor
  · intro e P hP
    have hdata : ("id:" ++ P).data = 'i' :: 'd' :: ':' :: P.data := by
      rw [String.data_append]; rfl
    have hd1 : strTake ("id:" ++ P) 6 ≠ "title:" := by
      intro hc
      have h2 := congrArg String.data hc
      rw [strTake, hdata] at h2
      simp at h2
    have hd2 : strTake ("id:" ++ P) 4 ≠ "tag:" := by
      intro hc
      have h2 := congrArg String.data hc
      rw [strTake, hdata] at h2
      simp at h2
    have hd3 : strTake ("id:" ++ P) 5 ≠ "site:" := by
      intro hc
      have h2 := congrArg String.data hc
      rw [strTake, hdata] at h2
      simp at h2
    have hd4 : strTake ("id:" ++ P) 4 ≠ "url:" := by
      intro hc
      have h2 := congrArg String.data hc
      rw [strTake, hdata] at h2
      simp at h2
    have hd5 : strTake ("id:" ++ P) 3 = "id:" := by
      rw [strTake, hdata]; rfl
    have hdrop : strDrop ("id:" ++ P) 3 = P := by
      rw [strDrop, hdata]; rfl
    have hlenP : 0 < strLen P := by
      rw [strLen]
      cases hpd : P.data with
      | nil => exact absurd (String.ext (hpd.trans rfl)) hP
      | cons c t => simp
    simp only [db_entry_search_match]
    rw [if_neg hd1, if_neg hd2, if_neg hd3, if_neg hd4, if_pos hd5, hdrop,
      if_pos hlenP]
    by_cases hle : strLen P ≤ strLen e.id
    · have hlen : (strLower P).data.length =
          (strLower (strTake e.id (strLen P))).data.length := by
        simp only [strLower, strTake, strLen, List.length_map,
          List.length_take]
        simp only [strLen] at hle
        exact (inf_eq_left.mpr hle).symm
      rw [strContains_eq_of_length hlen]
      constructor
      · intro hc
        exact ⟨hle, hc⟩
      · intro hc
        exact hc.2
    · constructor
      · intro hc
        exfalso
        have hlelen := strContains_length_le hc
        simp only [strLower, strTake, strLen, List.length_map,
          List.length_take] at hlelen
        simp only [strLen] at hle
        rw [inf_eq_right.mpr (le_of_not_le hle)] at hlelen
        omega
      · intro hc
        exact absurd hc.1 hle
  · intro e hid
    simp only [db_entry_search_match]
    rw [if_neg (by decide), if_neg (by decide), if_neg (by decide),
      if_neg (by decide), if_pos (by decide), if_neg (by decide)]
    rw [beq_eq_false_iff_ne]
    intro hl
    apply hid
    apply String.ext
    exact (List.length_eq_zero.mp hl).trans rfl

theorem C8_id_scoped_match_witness :
    (("A1" : String) ≠ "" ∧
      (db_entry_search_match entryA ("id:" ++ "A1") = true ↔
        strLen "A1" ≤ strLen entryA.id ∧
        strLower "A1" = strLower (strTake entryA.id (strLen "A1")))) ∧
    (entryA.id ≠ "" ∧ db_entry_search_match entryA "id:" = false) :=
  ⟨⟨by decide, C8_id_scoped_match.1 entryA "A1" (by decide)⟩,
   ⟨by decide, C8_id_scoped_match.2 entryA (by decide)⟩⟩

/-! ### Merge lemmas -/

theorem db_entry_changed_eq_false_iff (o n : Entry) :
    db_entry_changed o n = false ↔ o = n := by
  cases o
  cases n
  simp only [db_entry_changed, Entry.mk.injEq, Bool.or_eq_false_iff,
    bne_eq_false_iff_eq]
  tauto

theorem db_entry_changed_self (x : Entry) : db_entry_changed x x = false :=
  (db_entry_changed_eq_false_iff x x).mpr rfl

theorem db_entry_changed_eq_true_iff (o n : Entry) :
    db_entry_changed o n = true ↔ o ≠ n := by
  rw [← Bool.not_eq_false, not_iff_not]
  exact db_entry_changed_eq_false_iff o n

/-- Scanning for the same entry a second time finds an equal entry in place
and records no change. -/
theorem db_entry_update_scan_self (db : List Entry) (x : Entry) :
    db_entry_update_scan (db_entry_update_scan db x).1 x =
      ((db_entry_update_scan db x).1, false) := by
  induction db with
  | nil =>
    simp [db_entry_update_scan, db_entry_changed_self]
  | cons old rest ih =>
    by_cases h : old.id = x.id
    · by_cases hc : db_entry_changed old x = true
      · simp [db_entry_update_scan, h, hc, db_entry_changed_self]
      · have hox : old = x :=
          (db_entry_changed_eq_false_iff old x).mp (Bool.not_eq_true _ ▸ hc)
        simp [db_entry_update_scan, h, hc, hox, db_entry_changed_self]
    · simp [db_entry_update_scan, h, ih]

/-- C2: merge is idempotent: applying `db_entry_list_update` a second time
with the same unchanged entry returns the `None` changed-set and leaves the
list unchanged; and a matched entry is recorded as changed iff some field
differs in value or presence (i.e. the entries are not equal). -/
theorem C2_merge_idempotent :
    (∀ (db : List Entry) (x : Entry),
      db_entry_list_update (db_entry_list_update db [x]).1 [x] =
        ((db_entry_list_update db [x]).1, none)) ∧
    (∀ (db : List Entry) (x old : Entry),
      db.find? (fun e => e.id == x.id) = some old →
      ((db_entry_update_scan db x).2 = true ↔ old ≠ x)) := by
  constructor
  · intro db x
    have hscan := db_entry_update_scan_self db x
    simp [db_entry_list_update, db_entry_update_go, hscan]
  · intro db x
    induction db with
    | nil =>
      intro old h
      simp at h
    | cons o rest ih =>
      intro old h
      by_cases hid : o.id = x.id
      · rw [List.find?_cons_of_pos _ (by simp [hid])] at h
        have ho : o = old := by
          injection h
        subst ho
        by_cases hox : o = x
        · simp [db_entry_update_scan, hid, hox, db_entry_changed_self]
        · have hch : db_entry_changed o x = true :=
            (db_entry_changed_eq_true_iff o x).mpr hox
          simp [db_entry_update_scan, hid, hch, hox]
      · rw [List.find?_cons_of_neg _ (by simp [hid])] at h
        simp only [db_entry_update_scan, if_neg hid]
        exact ih old h

theorem C2_merge_idempotent_witness :
    ([entryA].find? (fun e => e.id == entryA.id) = some entryA) ∧
    (((db_entry_update_scan [entryA] entryA).2 = true) ↔ entryA ≠ entryA) :=
  ⟨by decide, C2_merge_idempotent.2 [entryA] entryA entryA (by decide)⟩

theorem mergeSubst_cons_pos {u old : Entry} (rest : List Entry)
    (h : u.id = old.id) : mergeSubst (u :: rest) old = u := by
  rw [mergeSubst, List.find?_cons_of_pos _ (by simp [h])]

theorem mergeSubst_cons_neg {u old : Entry} (rest : List Entry)
    (h : ¬u.id = old.id) : mergeSubst (u :: rest) old = mergeSubst rest old := by
  rw [mergeSubst, List.find?_cons_of_neg _ (by simp [h]), mergeSubst]

theorem mergeSubst_not_mem {entry_list : List Entry} {old : Entry}
    (h : ∀ u ∈ entry_list, ¬u.id = old.id) :
    mergeSubst entry_list old = old := by
  rw [mergeSubst, List.find?_eq_none.mpr (by simpa using h)]

theorem all_id_ne_of_map_id {db db' : List Entry}
    (h : db.map Entry.id = db'.map Entry.id) (i : String) :
    db.all (fun e => !(e.id == i)) = db'.all (fun e => !(e.id == i)) := by
  have key : ∀ l : List Entry,
      l.all (fun e => !(e.id == i)) =
        (l.map Entry.id).all (fun s => !(s == i)) := by
    intro l
    induction l with
    | nil => rfl
    | cons o t ih => simp [ih]
  rw [key db, key db', h]

/-- Scanning an entry whose id is present in an id-unique database replaces
the matching entry in place. -/
theorem db_entry_update_scan_fst_found (db : List Entry) (x : Entry)
    (hNd : (db.map Entry.id).Nodup) (hmem : x.id ∈ db.map Entry.id) :
    (db_entry_update_scan db x).1 =
      db.map (fun old => if old.id = x.id then x else old) := by
  induction db with
  | nil => simp at hmem
  | cons o rest ih =>
    rw [List.map_cons, List.nodup_cons] at hNd
    by_cases h : o.id = x.id
    · have hrest : ∀ e ∈ rest, ¬e.id = x.id := by
        intro e he hex
        exact hNd.1 (h ▸ hex ▸ List.mem_map_of_mem Entry.id he)
      have hmap :
          rest.map (fun old => if old.id = x.id then x else old) = rest := by
        conv_rhs => rw [← List.map_id rest]
        exact List.map_congr_left fun e he => by simp [hrest e he]
      by_cases hc : db_entry_changed o x = true
      · simp [db_entry_update_scan, h, hc, hmap]
      · have hox : o = x :=
          (db_entry_changed_eq_false_iff o x).mp (Bool.not_eq_true _ ▸ hc)
        simp only [db_entry_update_scan, if_pos h]
        rw [if_neg hc]
        simp [hmap, hox, h]
    · have hmem' : x.id ∈ rest.map Entry.id := by
        rw [List.map_cons] at hmem
        rcases List.mem_cons.mp hmem with hco | hin
        · exact absurd hco.symm h
        · exact hin
      simp [db_entry_update_scan, h, ih hNd.2 hmem']

/-- Scanning an entry whose id is absent appends it at the end. -/
theorem db_entry_update_scan_fst_notfound (db : List Entry) (x : Entry)
    (hmem : x.id ∉ db.map Entry.id) :
    db_entry_update_scan db x = (db ++ [x], true) := by
  induction db with
  | nil => rfl
  | cons o rest ih =>
    have h : ¬o.id = x.id := by
      intro hc
      exact hmem (by rw [List.map_cons, hc]; exact List.mem_cons_self _ _)
    have hmem' : x.id ∉ rest.map Entry.id := by
      intro hc
      exact hmem (by rw [List.map_cons]; exact List.mem_cons_of_mem _ hc)
    simp [db_entry_update_scan, h, ih hmem']

/-- C10: the merge preserves list order — when ids are unique, each update
whose id matches an existing entry replaces it at its original position,
each update with a fresh id is appended at the end in update order, and all
untouched entries keep their relative order. -/
theorem C10_merge_preserves_order :
    ∀ (entry_list db_entry_list : List Entry),
      (db_entry_list.map Entry.id).Nodup →
      (entry_list.map Entry.id).Nodup →
      (db_entry_list_update db_entry_list entry_list).1 =
        db_entry_list.map (mergeSubst entry_list) ++
          mergeFresh db_entry_list entry_list := by
  have main : ∀ (entry_list db : List Entry),
      (db.map Entry.id).Nodup → (entry_list.map Entry.id).Nodup →
      (db_entry_update_go db entry_list).1 =
        db.map (mergeSubst entry_list) ++ mergeFresh db entry_list := by
    intro entry_list
    induction entry_list with
    | nil =>
      intro db _h1 _h2
      have : db.map (mergeSubst []) = db := by
        conv_rhs => rw [← List.map_id db]
        exact List.map_congr_left fun e _he => rfl
      simp [db_entry_update_go, mergeFresh, this]
    | cons u rest ih =>
      intro db h1 h2
      rw [List.map_cons, List.nodup_cons] at h2
      have hu_rest : ∀ u' ∈ rest, ¬u'.id = u.id := by
        intro u' hu' he
        exact h2.1 (he ▸ List.mem_map_of_mem Entry.id hu')
      by_cases hfound : u.id ∈ db.map Entry.id
      · have hscan := db_entry_update_scan_fst_found db u h1 hfound
        have hids : ((db_entry_update_scan db u).1).map Entry.id =
            db.map Entry.id := by
          rw [hscan, List.map_map]
          exact List.map_congr_left fun e _he => by
            by_cases hc : e.id = u.id
            · simp [Function.comp, hc]
            · simp [Function.comp, hc]
        have hstep : (db_entry_update_go db (u :: rest)).1 =
            (db_entry_update_go (db_entry_update_scan db u).1 rest).1 := rfl
        rw [hstep, ih _ (hids ▸ h1) h2.2]
        have hmapeq : ((db_entry_update_scan db u).1).map (mergeSubst rest) =
            db.map (mergeSubst (u :: rest)) := by
          rw [hscan, List.map_map]
          refine List.map_congr_left fun e _he => ?_
          by_cases hc : e.id = u.id
          · have hru : mergeSubst rest u = u :=
              mergeSubst_not_mem fun u' hu' he => hu_rest u' hu' he
            simp only [Function.comp_apply, if_pos hc, hru,
              mergeSubst_cons_pos rest hc.symm]
          · simp only [Function.comp_apply, if_neg hc,
              mergeSubst_cons_neg rest (fun q => hc q.symm)]
        have hfresheq : mergeFresh (db_entry_update_scan db u).1 rest =
            mergeFresh db rest := by
          rw [mergeFresh, mergeFresh]
          exact List.filter_congr fun u' _hu' =>
            all_id_ne_of_map_id hids u'.id
        have hfreshcons : mergeFresh db (u :: rest) = mergeFresh db rest := by
          have hall : (db.all fun e => !(e.id == u.id)) = false := by
            rcases List.mem_map.mp hfound with ⟨e, he, heid⟩
            exact List.all_eq_false.mpr ⟨e, he, by simp [heid]⟩
          rw [mergeFresh, mergeFresh,
            List.filter_cons_of_neg (by rw [hall]; exact Bool.false_ne_true)]
        rw [hmapeq, hfresheq, hfreshcons]
      · have hscan := db_entry_update_scan_fst_notfound db u hfound
        have hids2 : ((db ++ [u]).map Entry.id).Nodup := by
          rw [List.map_append]
          rw [List.nodup_append]
          exact ⟨h1, List.nodup_singleton _, by simpa using hfound⟩
        have hstep : (db_entry_update_go db (u :: rest)).1 =
            (db_entry_update_go (db_entry_update_scan db u).1 rest).1 := rfl
        rw [hstep, hscan, ih _ hids2 h2.2]
        have hmapeq : (db ++ [u]).map (mergeSubst rest) =
            db.map (mergeSubst (u :: rest)) ++ [u] := by
          rw [List.map_append]
          congr 1
          · refine List.map_congr_left fun e he => ?_
            have hne : ¬u.id = e.id := by
              intro hc
              exact hfound (hc ▸ List.mem_map_of_mem Entry.id he)
            exact (mergeSubst_cons_neg rest hne).symm
          · simp [mergeSubst_not_mem fun u' hu' he => hu_rest u' hu' he]
        have hfresheq : mergeFresh (db ++ [u]) rest = mergeFresh db rest := by
          rw [mergeFresh, mergeFresh]
          refine List.filter_congr fun u' hu' => ?_
          rw [List.all_append]
          have : ¬u.id = u'.id := fun q => hu_rest u' hu' q.symm
          simp [this]
        have hfreshcons : mergeFresh db (u :: rest) =
            u :: mergeFresh db rest := by
          rw [mergeFresh, mergeFresh, List.filter_cons_of_pos]
          refine List.all_eq_true.mpr fun e he => ?_
          have : ¬e.id = u.id := by
            intro hc
            exact hfound (hc ▸ List.mem_map_of_mem Entry.id he)
          simp [this]
        rw [hmapeq, hfresheq, hfreshcons, List.append_assoc]
        rfl
  intro entry_list db h1 h2
  rw [db_entry_list_update]
  exact main entry_list db h1 h2

theorem C10_merge_preserves_order_witness :
    (([entryA, entryB].map Entry.id).Nodup ∧
      ([entryC].map Entry.id).Nodup) ∧
    (db_entry_list_update [entryA, entryB] [entryC]).1 =
      [entryA, entryB].map (mergeSubst [entryC]) ++
        mergeFresh [entryA, entryB] [entryC] :=
  ⟨⟨by decide, by decide⟩,
    C10_merge_preserves_order [entryC] [entryA, entryB] (by decide)
      (by decide)⟩


/-! ### Calendar correctness -/

set_option maxHeartbeats 4000000 in
/-- Bounds of the Hinnant year-of-era computation: over one full era the
computed year's day-count base lands at most 365 days before the given
day-of-era, and the year index stays below 400. -/
theorem yoe_facts (doe : Nat) (h : doe ≤ 146096) :
    365 * ((doe - doe / 1460 + doe / 36524 - doe / 146096) / 365) +
        ((doe - doe / 1460 + doe / 36524 - doe / 146096) / 365) / 4 -
        ((doe - doe / 1460 + doe / 36524 - doe / 146096) / 365) / 100 ≤ doe ∧
    doe - (365 * ((doe - doe / 1460 + doe / 36524 - doe / 146096) / 365) +
        ((doe - doe / 1460 + doe / 36524 - doe / 146096) / 365) / 4 -
        ((doe - doe / 1460 + doe / 36524 - doe / 146096) / 365) / 100) ≤ 365 ∧
    (doe - doe / 1460 + doe / 36524 - doe / 146096) / 365 ≤ 399 := by
  obtain ⟨q, r, rfl, hr⟩ : ∃ q r, doe = 1460 * q + r ∧ r < 1460 :=
    ⟨doe / 1460, doe % 1460, by omega, by omega⟩
  have hq : q ≤ 100 := by omega
  interval_cases q <;>
    first
      | omega
      | (rcases Nat.lt_or_ge r 24 with h2 | h2 <;>
         rcases Nat.lt_or_ge r 48 with h3 | h3 <;>
         rcases Nat.lt_or_ge r 72 with h4 | h4 <;> omega)

theorem doe_recompose (doe yoe doy mp d m mp2 : Nat)
    (h : doe ≤ 146096)
    (hyoe : yoe = (doe - doe / 1460 + doe / 36524 - doe / 146096) / 365)
    (hdoy : doy = doe - (365 * yoe + yoe / 4 - yoe / 100))
    (hmp : mp = (5 * doy + 2) / 153)
    (hd : d = doy - (153 * mp + 2) / 5 + 1)
    (hm : m = if mp < 10 then mp + 3 else mp - 9)
    (hmp2 : mp2 = if 2 < m then m - 3 else m + 9) :
    365 * yoe + yoe / 4 - yoe / 100 + ((153 * mp2 + 2) / 5 + d - 1) = doe ∧
    yoe ≤ 399 ∧ 1 ≤ m ∧ m ≤ 12 ∧ ((m ≤ 2) ↔ 10 ≤ mp) ∧ 1 ≤ d ∧ d ≤ 31 := by
  have h1 := yoe_facts doe h
  rw [← hyoe] at h1
  split_ifs at hm hmp2 <;> omega

theorem toNat_add_cancel (era : Int) (yoe : Nat) :
    ((yoe : Int) + era * 400 - era * 400).toNat = yoe := by
  omega

theorem daysFromCivil_of (era : Int) (yoe m d : Nat) (h : yoe ≤ 399) :
    daysFromCivil ((yoe : Int) + era * 400 + (if m ≤ 2 then 1 else 0)) m d =
      era * 146097 +
        ((365 * yoe + yoe / 4 - yoe / 100 +
          ((153 * (if 2 < m then m - 3 else m + 9) + 2) / 5 + d - 1) : Nat) :
        Int) - 719468 := by
  simp only [daysFromCivil]
  have h1 : (yoe : Int) + era * 400 + (if m ≤ 2 then (1 : Int) else 0) -
      (if m ≤ 2 then (1 : Int) else 0) = (yoe : Int) + era * 400 := by
    ring
  rw [h1]
  have h2 : ((yoe : Int) + era * 400) / 400 = era := by omega
  rw [h2, toNat_add_cancel]

theorem civil_assemble (z era : Int) (doe yoe doy mp d m : Nat)
    (hera : era = (z + 719468) / 146097)
    (hdoe : (doe : Int) = z + 719468 - era * 146097)
    (hyoe : yoe = (doe - doe / 1460 + doe / 36524 - doe / 146096) / 365)
    (hdoy : doy = doe - (365 * yoe + yoe / 4 - yoe / 100))
    (hmp : mp = (5 * doy + 2) / 153)
    (hd : d = doy - (153 * mp + 2) / 5 + 1)
    (hm : m = if mp < 10 then mp + 3 else mp - 9) :
    daysFromCivil ((yoe : Int) + era * 400 + (if m ≤ 2 then 1 else 0)) m d
      = z := by
  have hb : doe ≤ 146096 := by omega
  have hrec := doe_recompose doe yoe doy mp d m
    (if 2 < m then m - 3 else m + 9) hb hyoe hdoy hmp hd hm rfl
  clear hyoe hdoy hmp hd hm hb
  rw [daysFromCivil_of era yoe m d hrec.2.1, hrec.1]
  omega

theorem daysFromCivil_civilFromDays (z : Int) :
    daysFromCivil (civilFromDays z).1 (civilFromDays z).2.1
      (civilFromDays z).2.2 = z := by
  simp only [civilFromDays]
  exact civil_assemble z _ _ _ _ _ _ _ rfl (by omega) rfl rfl rfl rfl rfl

/-! ### Codec correctness -/

theorem digitChar10_isDigit (n : Nat) : (digitChar10 n).isDigit = true := by
  unfold digitChar10
  generalize hk : n % 10 = k
  have hk10 : k < 10 := by omega
  interval_cases k <;> decide

theorem digitVal_digitChar10 (n : Nat) : digitVal (digitChar10 n) = n % 10 := by
  unfold digitChar10 digitVal
  generalize hk : n % 10 = k
  have hk10 : k < 10 := by omega
  interval_cases k <;> decide

theorem digitChar10_ne_colon (n : Nat) : ¬digitChar10 n = ':' := by
  unfold digitChar10
  generalize hk : n % 10 = k
  have hk10 : k < 10 := by omega
  interval_cases k <;> decide

theorem natPad2_all_isDigit (n : Nat) : (natPad2 n).all Char.isDigit = true := by
  simp [natPad2, digitChar10_isDigit]

theorem natPad4_all_isDigit (n : Nat) : (natPad4 n).all Char.isDigit = true := by
  simp [natPad4, natPad2, digitChar10_isDigit]

theorem natOfDigits_natPad2 (n : Nat) (h : n < 100) :
    natOfDigits (natPad2 n) = n := by
  have h1 := digitVal_digitChar10 (n / 10)
  have h2 := digitVal_digitChar10 n
  simp only [natPad2, natOfDigits, List.foldl_cons, List.foldl_nil]
  omega

theorem natOfDigits_natPad4 (n : Nat) (h : n < 10000) :
    natOfDigits (natPad4 n) = n := by
  have h1 := digitVal_digitChar10 (n / 100 / 10)
  have h2 := digitVal_digitChar10 (n / 100)
  have h3 := digitVal_digitChar10 (n / 10)
  have h4 := digitVal_digitChar10 n
  simp only [natPad4, natPad2, natOfDigits, List.append_assoc, List.cons_append,
    List.nil_append, List.foldl_cons, List.foldl_nil]
  omega
theorem takeWhile_isDigit_append {pad rest : List Char}
    (h : pad.all Char.isDigit = true) :
    (pad ++ rest).takeWhile Char.isDigit = pad ++ rest.takeWhile Char.isDigit := by
  induction pad with
  | nil => simp
  | cons c t ih =>
    simp only [List.all_cons, Bool.and_eq_true] at h
    simp [List.takeWhile_cons, h.1, ih h.2]

theorem parseDigits_exact {maxLen : Nat} {pad rest : List Char}
    (h1 : pad.all Char.isDigit = true) (h2 : pad.length = maxLen)
    (h3 : 0 < maxLen) :
    parseDigits maxLen (pad ++ rest) = some (natOfDigits pad, rest) := by
  have hne : ¬pad = [] := by
    intro hc
    rw [hc] at h2
    simp at h2
    omega
  have hemp : pad.isEmpty = false := by
    cases pad with
    | nil => exact absurd rfl hne
    | cons a t => rfl
  unfold parseDigits
  rw [takeWhile_isDigit_append h1]
  rw [← h2, List.take_left]
  simp only [hemp, Bool.false_eq_true, if_false, List.drop_left]

theorem parseOffTail_pads (a : Nat) (rest : List Char) (ha : a < 1440) :
    parseOffTail (natPad2 (a / 60) ++ (natPad2 (a % 60) ++ rest)) =
      some (a, rest) := by
  have hd1 := digitChar10_isDigit (a / 60 / 10)
  have hd2 := digitChar10_isDigit (a / 60)
  have hd3 := digitChar10_isDigit (a % 60 / 10)
  have hd4 := digitChar10_isDigit (a % 60)
  have hne := digitChar10_ne_colon (a % 60 / 10)
  have hv1 : natOfDigits [digitChar10 (a / 60 / 10), digitChar10 (a / 60)]
      = a / 60 := natOfDigits_natPad2 (a / 60) (by omega)
  have hv2 : natOfDigits [digitChar10 (a % 60 / 10), digitChar10 (a % 60)]
      = a % 60 := natOfDigits_natPad2 (a % 60) (by omega)
  simp only [natPad2, List.cons_append, List.nil_append, parseOffTail,
    List.head?_cons, hd1, hd2, hd3, hd4, and_self, if_true]
  rw [if_neg (by simp [hne])]
  simp only [hd3, hd4, and_self, if_true, hv1, hv2]
  rw [if_pos (by omega)]
  have : a / 60 * 60 + a % 60 = a := by omega
  rw [this]

theorem run_year {fr pad rest : List Char} {acc : Strp}
    (h1 : pad.all Char.isDigit = true) (h2 : pad.length = 4) :
    pyStrptimeRun ('%' :: 'Y' :: fr) (pad ++ rest) acc =
      pyStrptimeRun fr rest { acc with y := natOfDigits pad } := by
  rw [pyStrptimeRun, if_pos rfl, parseDigits_exact h1 h2 (by omega)]

theorem run_month {fr pad rest : List Char} {acc : Strp}
    (h1 : pad.all Char.isDigit = true) (h2 : pad.length = 2) :
    pyStrptimeRun ('%' :: 'm' :: fr) (pad ++ rest) acc =
      pyStrptimeRun fr rest { acc with m := natOfDigits pad } := by
  rw [pyStrptimeRun, if_neg (by decide), if_pos rfl,
    parseDigits_exact h1 h2 (by omega)]

theorem run_day {fr pad rest : List Char} {acc : Strp}
    (h1 : pad.all Char.isDigit = true) (h2 : pad.length = 2) :
    pyStrptimeRun ('%' :: 'd' :: fr) (pad ++ rest) acc =
      pyStrptimeRun fr rest { acc with d := natOfDigits pad } := by
  rw [pyStrptimeRun, if_neg (by decide), if_neg (by decide), if_pos rfl,
    parseDigits_exact h1 h2 (by omega)]

theorem run_hour {fr pad rest : List Char} {acc : Strp}
    (h1 : pad.all Char.isDigit = true) (h2 : pad.length = 2) :
    pyStrptimeRun ('%' :: 'H' :: fr) (pad ++ rest) acc =
      pyStrptimeRun fr rest { acc with hh := natOfDigits pad } := by
  rw [pyStrptimeRun, if_neg (by decide), if_neg (by decide),
    if_neg (by decide), if_pos rfl, parseDigits_exact h1 h2 (by omega)]

theorem run_minute {fr pad rest : List Char} {acc : Strp}
    (h1 : pad.all Char.isDigit = true) (h2 : pad.length = 2) :
    pyStrptimeRun ('%' :: 'M' :: fr) (pad ++ rest) acc =
      pyStrptimeRun fr rest { acc with mi := natOfDigits pad } := by
  rw [pyStrptimeRun, if_neg (by decide), if_neg (by decide),
    if_neg (by decide), if_neg (by decide), if_pos rfl,
    parseDigits_exact h1 h2 (by omega)]

theorem run_second {fr pad rest : List Char} {acc : Strp}
    (h1 : pad.all Char.isDigit = true) (h2 : pad.length = 2) :
    pyStrptimeRun ('%' :: 'S' :: fr) (pad ++ rest) acc =
      pyStrptimeRun fr rest { acc with ss := natOfDigits pad } := by
  rw [pyStrptimeRun, if_neg (by decide), if_neg (by decide),
    if_neg (by decide), if_neg (by decide), if_neg (by decide), if_pos rfl,
    parseDigits_exact h1 h2 (by omega)]

theorem run_lit (fc : Char) {fr sr : List Char} {acc : Strp}
    (h : ¬fc = '%') :
    pyStrptimeRun (fc :: fr) (fc :: sr) acc = pyStrptimeRun fr sr acc := by
  rw [pyStrptimeRun, if_pos rfl]
  all_goals
    intros
    simp_all

theorem run_z_plus {fr rest : List Char} {acc : Strp} {a : Nat}
    (ha : a < 1440) :
    pyStrptimeRun ('%' :: 'z' :: fr)
      ('+' :: (natPad2 (a / 60) ++ (natPad2 (a % 60) ++ rest))) acc =
      pyStrptimeRun fr rest { acc with off := (a : Int) } := by
  rw [pyStrptimeRun, if_neg (by decide), if_neg (by decide),
    if_neg (by decide), if_neg (by decide), if_neg (by decide),
    if_neg (by decide), if_pos rfl]
  simp only [parseZOff, parseOffTail_pads a rest ha, Option.map_some']

theorem run_z_minus {fr rest : List Char} {acc : Strp} {a : Nat}
    (ha : a < 1440) :
    pyStrptimeRun ('%' :: 'z' :: fr)
      ('-' :: (natPad2 (a / 60) ++ (natPad2 (a % 60) ++ rest))) acc =
      pyStrptimeRun fr rest { acc with off := -(a : Int) } := by
  rw [pyStrptimeRun, if_neg (by decide), if_neg (by decide),
    if_neg (by decide), if_neg (by decide), if_neg (by decide),
    if_neg (by decide), if_pos rfl]
  simp only [parseZOff, parseOffTail_pads a rest ha, Option.map_some']

theorem run_nil_nil (acc : Strp) : pyStrptimeRun [] [] acc = some acc := rfl
theorem civilFromDays_md (z : Int) :
    1 ≤ (civilFromDays z).2.1 ∧ (civilFromDays z).2.1 ≤ 12 ∧
      1 ≤ (civilFromDays z).2.2 ∧ (civilFromDays z).2.2 ≤ 31 := by
  have h := doe_recompose
    ((z + 719468 - (z + 719468) / 146097 * 146097).toNat)
    _ _ _ _ _ _ (by omega) rfl rfl rfl rfl rfl rfl
  exact ⟨h.2.2.1, h.2.2.2.1, h.2.2.2.2.2.1, h.2.2.2.2.2.2⟩

theorem intPad4_of_nonneg {y : Int} (h : 0 ≤ y) :
    intPad4 y = natPad4 y.toNat := by
  rw [intPad4, if_neg (by omega)]

theorem pyStrftimeRun_persist (y : Int) (m d hh mi ss : Nat) (off : Int) :
    pyStrftimeRun DB_DATETIME_FORMAT.data y m d hh mi ss off =
      intPad4 y ++ ('-' :: (natPad2 m ++ ('-' :: (natPad2 d ++ ('T' ::
        (natPad2 hh ++ (':' :: (natPad2 mi ++ (':' :: (natPad2 ss ++
        ('Z' :: (((if off < 0 then '-' else '+') ::
          (natPad2 (off.natAbs / 60) ++ natPad2 (off.natAbs % 60))) ++
          [])))))))))))) := rfl
theorem pyStrptimeUtc_pyStrftime_persist (off usec : Int)
    (hoff : off.natAbs < 1440) (husec : usec % 1000000 = 0)
    (hy1 : 1 ≤ strfYear off usec) (hy2 : strfYear off usec ≤ 9999) :
    pyStrptimeUtc DB_DATETIME_FORMAT (pyStrftime DB_DATETIME_FORMAT off usec)
      = some usec := by
  simp only [strfYear] at hy1 hy2
  have hmd := civilFromDays_md (strfDays off usec)
  have hfmt : DB_DATETIME_FORMAT.data =
      ['%', 'Y', '-', '%', 'm', '-', '%', 'd', 'T', '%', 'H', ':', '%', 'M',
       ':', '%', 'S', 'Z', '%', 'z'] := rfl
  have houtput : (pyStrftime DB_DATETIME_FORMAT off usec).data =
      pyStrftimeRun DB_DATETIME_FORMAT.data
        (civilFromDays (strfDays off usec)).1
        (civilFromDays (strfDays off usec)).2.1
        (civilFromDays (strfDays off usec)).2.2
        (strfSod off usec / 3600) (strfSod off usec % 3600 / 60)
        (strfSod off usec % 60) off := rfl
  have hY0 : 0 ≤ (civilFromDays (strfDays off usec)).1 := by omega
  have hsodb : strfSod off usec < 86400 := by
    unfold strfSod
    omega
  unfold pyStrptimeUtc
  rw [houtput, pyStrftimeRun_persist, intPad4_of_nonneg hY0, hfmt]
  rw [run_year (natPad4_all_isDigit _) rfl]
  rw [run_lit '-' (by decide), run_month (natPad2_all_isDigit _) rfl]
  rw [run_lit '-' (by decide), run_day (natPad2_all_isDigit _) rfl]
  rw [run_lit 'T' (by decide), run_hour (natPad2_all_isDigit _) rfl]
  rw [run_lit ':' (by decide), run_minute (natPad2_all_isDigit _) rfl]
  rw [run_lit ':' (by decide), run_second (natPad2_all_isDigit _) rfl]
  rw [run_lit 'Z' (by decide), List.cons_append, List.append_assoc]
  rw [natOfDigits_natPad4 _ (by omega)]
  rw [natOfDigits_natPad2 ((civilFromDays (strfDays off usec)).2.1)
    (by omega)]
  rw [natOfDigits_natPad2 ((civilFromDays (strfDays off usec)).2.2)
    (by omega)]
  rw [natOfDigits_natPad2 (strfSod off usec / 3600) (by omega)]
  rw [natOfDigits_natPad2 (strfSod off usec % 3600 / 60) (by omega)]
  rw [natOfDigits_natPad2 (strfSod off usec % 60) (by omega)]
  have hinstant : ∀ p : Strp, p.y = ((civilFromDays (strfDays off usec)).1).toNat →
      p.m = (civilFromDays (strfDays off usec)).2.1 →
      p.d = (civilFromDays (strfDays off usec)).2.2 →
      p.hh = strfSod off usec / 3600 → p.mi = strfSod off usec % 3600 / 60 →
      p.ss = strfSod off usec % 60 → p.off = off →
      p.instantUtc = usec := by
    intro p e1 e2 e3 e4 e5 e6 e7
    rw [Strp.instantUtc, e1, e2, e3, e4, e5, e6, e7]
    rw [Int.toNat_of_nonneg hY0]
    rw [daysFromCivil_civilFromDays (strfDays off usec)]
    unfold strfDays strfSod
    omega
  have hrangeOk : ∀ p : Strp, p.y = ((civilFromDays (strfDays off usec)).1).toNat →
      p.m = (civilFromDays (strfDays off usec)).2.1 →
      p.d = (civilFromDays (strfDays off usec)).2.2 →
      p.hh = strfSod off usec / 3600 → p.mi = strfSod off usec % 3600 / 60 →
      p.ss = strfSod off usec % 60 →
      p.rangeOk = true := by
    intro p e1 e2 e3 e4 e5 e6
    simp only [Strp.rangeOk, e1, e2, e3, e4, e5, e6, Bool.and_eq_true,
      decide_eq_true_eq]
    omega
  rcases le_or_lt 0 off with hpos | hneg
  · rw [if_neg (by omega)]
    rw [run_z_plus hoff, run_nil_nil, Option.some_bind]
    rw [if_pos (hrangeOk _ rfl rfl rfl rfl rfl rfl)]
    rw [hinstant _ rfl rfl rfl rfl rfl rfl
      (by show ((off.natAbs : Nat) : Int) = off; omega)]
  · rw [if_pos hneg]
    rw [run_z_minus hoff, run_nil_nil, Option.some_bind]
    rw [if_pos (hrangeOk _ rfl rfl rfl rfl rfl rfl)]
    rw [hinstant _ rfl rfl rfl rfl rfl rfl
      (by show -((off.natAbs : Nat) : Int) = off; omega)]

theorem pyStrftimeRun_edit (y : Int) (m d hh mi ss : Nat) (off : Int) :
    pyStrftimeRun EDITDOC_DATETIME_FORMAT.data y m d hh mi ss off =
      intPad4 y ++ ('-' :: (natPad2 m ++ ('-' :: (natPad2 d ++ (' ' ::
        (natPad2 hh ++ (':' :: (natPad2 mi ++ (':' :: (natPad2 ss ++
        (' ' :: (((if off < 0 then '-' else '+') ::
          (natPad2 (off.natAbs / 60) ++ natPad2 (off.natAbs % 60))) ++
          [])))))))))))) := rfl

theorem pyStrptimeUtc_pyStrftime_edit (off usec : Int)
    (hoff : off.natAbs < 1440) (husec : usec % 1000000 = 0)
    (hy1 : 1 ≤ strfYear off usec) (hy2 : strfYear off usec ≤ 9999) :
    pyStrptimeUtc EDITDOC_DATETIME_FORMAT
      (pyStrftime EDITDOC_DATETIME_FORMAT off usec) = some usec := by
  simp only [strfYear] at hy1 hy2
  have hmd := civilFromDays_md (strfDays off usec)
  have hfmt : EDITDOC_DATETIME_FORMAT.data =
      ['%', 'Y', '-', '%', 'm', '-', '%', 'd', ' ', '%', 'H', ':', '%', 'M',
       ':', '%', 'S', ' ', '%', 'z'] := rfl
  have houtput : (pyStrftime EDITDOC_DATETIME_FORMAT off usec).data =
      pyStrftimeRun EDITDOC_DATETIME_FORMAT.data
        (civilFromDays (strfDays off usec)).1
        (civilFromDays (strfDays off usec)).2.1
        (civilFromDays (strfDays off usec)).2.2
        (strfSod off usec / 3600) (strfSod off usec % 3600 / 60)
        (strfSod off usec % 60) off := rfl
  have hY0 : 0 ≤ (civilFromDays (strfDays off usec)).1 := by omega
  have hsodb : strfSod off usec < 86400 := by
    unfold strfSod
    omega
  unfold pyStrptimeUtc
  rw [houtput, pyStrftimeRun_edit, intPad4_of_nonneg hY0, hfmt]
  rw [run_year (natPad4_all_isDigit _) rfl]
  rw [run_lit '-' (by decide), run_month (natPad2_all_isDigit _) rfl]
  rw [run_lit '-' (by decide), run_day (natPad2_all_isDigit _) rfl]
  rw [run_lit ' ' (by decide), run_hour (natPad2_all_isDigit _) rfl]
  rw [run_lit ':' (by decide), run_minute (natPad2_all_isDigit _) rfl]
  rw [run_lit ':' (by decide), run_second (natPad2_all_isDigit _) rfl]
  rw [run_lit ' ' (by decide), List.cons_append, List.append_assoc]
  rw [natOfDigits_natPad4 _ (by omega)]
  rw [natOfDigits_natPad2 ((civilFromDays (strfDays off usec)).2.1)
    (by omega)]
  rw [natOfDigits_natPad2 ((civilFromDays (strfDays off usec)).2.2)
    (by omega)]
  rw [natOfDigits_natPad2 (strfSod off usec / 3600) (by omega)]
  rw [natOfDigits_natPad2 (strfSod off usec % 3600 / 60) (by omega)]
  rw [natOfDigits_natPad2 (strfSod off usec % 60) (by omega)]
  have hinstant : ∀ p : Strp,
      p.y = ((civilFromDays (strfDays off usec)).1).toNat →
      p.m = (civilFromDays (strfDays off usec)).2.1 →
      p.d = (civilFromDays (strfDays off usec)).2.2 →
      p.hh = strfSod off usec / 3600 → p.mi = strfSod off usec % 3600 / 60 →
      p.ss = strfSod off usec % 60 → p.off = off →
      p.instantUtc = usec := by
    intro p e1 e2 e3 e4 e5 e6 e7
    rw [Strp.instantUtc, e1, e2, e3, e4, e5, e6, e7]
    rw [Int.toNat_of_nonneg hY0]
    rw [daysFromCivil_civilFromDays (strfDays off usec)]
    unfold strfDays strfSod
    omega
  have hrangeOk : ∀ p : Strp,
      p.y = ((civilFromDays (strfDays off usec)).1).toNat →
      p.m = (civilFromDays (strfDays off usec)).2.1 →
      p.d = (civilFromDays (strfDays off usec)).2.2 →
      p.hh = strfSod off usec / 3600 → p.mi = strfSod off usec % 3600 / 60 →
      p.ss = strfSod off usec % 60 →
      p.rangeOk = true := by
    intro p e1 e2 e3 e4 e5 e6
    simp only [Strp.rangeOk, e1, e2, e3, e4, e5, e6, Bool.and_eq_true,
      decide_eq_true_eq]
    omega
  rcases le_or_lt 0 off with hpos | hneg
  · rw [if_neg (by omega)]
    rw [run_z_plus hoff, run_nil_nil, Option.some_bind]
    rw [if_pos (hrangeOk _ rfl rfl rfl rfl rfl rfl)]
    rw [hinstant _ rfl rfl rfl rfl rfl rfl
      (by show ((off.natAbs : Nat) : Int) = off; omega)]
  · rw [if_pos hneg]
    rw [run_z_minus hoff, run_nil_nil, Option.some_bind]
    rw [if_pos (hrangeOk _ rfl rfl rfl rfl rfl rfl)]
    rw [hinstant _ rfl rfl rfl rfl rfl rfl
      (by show -((off.natAbs : Nat) : Int) = off; omega)]

theorem pyStrftime_persist_ne_empty (off usec : Int) :
    ¬pyStrftime DB_DATETIME_FORMAT off usec = "" := by
  intro hc
  have h2 := congrArg String.data hc
  rw [pyStrftime] at h2
  rw [pyStrftimeRun_persist] at h2
  rw [intPad4] at h2
  by_cases hy : (civilFromDays ((usec + off * 60000000) / 1000000 / 86400)).1 < 0
  · rw [if_pos hy] at h2
    simp at h2
  · rw [if_neg hy] at h2
    simp [natPad4, natPad2] at h2
theorem optStrTrim_none : optStrTrim none = none := rfl

theorem optStrTrim_some_fmt (off usec : Int) :
    optStrTrim (some (pyStrftime DB_DATETIME_FORMAT off usec)) =
      some (pyStrftime DB_DATETIME_FORMAT off usec) := by
  rw [optStrTrim, if_neg]
  simp [pyStrftime_persist_ne_empty]
theorem optStrTrim_ne_empty (v : Option String) : ¬optStrTrim v = some "" := by
  unfold optStrTrim
  split
  · simp
  · assumption

/-- C3 (amended): for a whole-second entry whose rendered years are in
range, internalizing the externalized form (default persisted format, any
formatting offset below a day, local or UTC) reproduces the entry up to
empty-string trimming of the optional strings `extended` and
`removed_reason`; in particular all required fields and every date field
are recovered exactly as UTC instants. -/
theorem C3_roundtrip (e : Entry) (datetime_as_local : Bool)
    (local_offset : Int)
    (hoff : (if datetime_as_local then local_offset else 0).natAbs < 1440)
    (hcd : dateFmtOk (if datetime_as_local then local_offset else 0)
      e.created_date)
    (had : ∀ a, e.archived_date = some a →
      dateFmtOk (if datetime_as_local then local_offset else 0) a)
    (hrd : ∀ r, e.removed_date = some r →
      dateFmtOk (if datetime_as_local then local_offset else 0) r) :
    db_entry_internalize
      (db_entry_externalize e DB_DATETIME_FORMAT datetime_as_local
        local_offset) DB_DATETIME_FORMAT =
      some { e with extended := optStrTrim e.extended,
                    removed_reason := optStrTrim e.removed_reason } := by
  obtain ⟨eid, eurl, etitle, etags, ecd, earch, ead, eext, erem, erd, err⟩ := e
  simp only [Entry.created_date] at hcd
  simp only [Entry.archived_date] at had
  simp only [Entry.removed_date] at hrd
  have hcdRT := pyStrptimeUtc_pyStrftime_persist
    (if datetime_as_local then local_offset else 0) ecd hoff hcd.1 hcd.2.1
    hcd.2.2
  simp only [db_entry_externalize, db_entry_internalize,
    db_entry_internalize_trim]
  simp only [optDateParse]
  rcases ead with _ | a
  all_goals rcases erd with _ | r
  case none.none =>
    simp only [Option.map_none', optStrTrim_none, hcdRT, optDateParse,
      Option.some_bind]
  case none.some =>
    have hrRT := pyStrptimeUtc_pyStrftime_persist
      (if datetime_as_local then local_offset else 0) r hoff (hrd r rfl).1
      (hrd r rfl).2.1 (hrd r rfl).2.2
    simp only [Option.map_none', Option.map_some', optStrTrim_none,
      optStrTrim_some_fmt, hcdRT, hrRT, optDateParse, Option.some_bind]
  case some.none =>
    have haRT := pyStrptimeUtc_pyStrftime_persist
      (if datetime_as_local then local_offset else 0) a hoff (had a rfl).1
      (had a rfl).2.1 (had a rfl).2.2
    simp only [Option.map_none', Option.map_some', optStrTrim_none,
      optStrTrim_some_fmt, hcdRT, haRT, optDateParse, Option.some_bind]
  case some.some =>
    have haRT := pyStrptimeUtc_pyStrftime_persist
      (if datetime_as_local then local_offset else 0) a hoff (had a rfl).1
      (had a rfl).2.1 (had a rfl).2.2
    have hrRT := pyStrptimeUtc_pyStrftime_persist
      (if datetime_as_local then local_offset else 0) r hoff (hrd r rfl).1
      (hrd r rfl).2.1 (hrd r rfl).2.2
    simp only [Option.map_none', Option.map_some', optStrTrim_none,
      optStrTrim_some_fmt, hcdRT, haRT, hrRT, optDateParse, Option.some_bind]


/-- C4 (amended): a record persisted by `db_save_db` never holds an empty
optional date string, and never an empty `extended`/`removed_reason` when
the in-memory entry had none — which internalization guarantees for loaded
entries, but which `db_entry_add` without an editor round-trip violates
(see the counterexample). -/
theorem C4_save_optional_strings :
    (∀ db : List Entry,
      (∀ e ∈ db, ¬e.extended = some "" ∧ ¬e.removed_reason = some "") →
      ∀ r ∈ db_save_db db,
        ¬r.extended = some "" ∧ ¬r.removed_reason = some "" ∧
        ¬r.archived_date = some "" ∧ ¬r.removed_date = some "") ∧
    (∀ (rec : ExtEntry) (e : Entry),
      db_entry_internalize rec DB_DATETIME_FORMAT = some e →
      ¬e.extended = some "" ∧ ¬e.removed_reason = some "") := by
  constructor
  · intro db h r hr
    unfold db_save_db at hr
    rcases List.mem_map.mp hr with ⟨e, he, rfl⟩
    have he2 : e ∈ db :=
      (List.mem_insertionSort (fun a b => a.created_date ≤ b.created_date)).mp
        he
    refine ⟨?_, ?_, ?_, ?_⟩
    · simp only [db_entry_externalize]
      exact (h e he2).1
    · simp only [db_entry_externalize]
      exact (h e he2).2
    · simp only [db_entry_externalize]
      rcases e.archived_date with _ | a
      · simp
      · simp only [Option.map_some']
        intro hc
        exact pyStrftime_persist_ne_empty _ _ (Option.some.injEq .. |>.mp hc)
    · simp only [db_entry_externalize]
      rcases e.removed_date with _ | a
      · simp
      · simp only [Option.map_some']
        intro hc
        exact pyStrftime_persist_ne_empty _ _ (Option.some.injEq .. |>.mp hc)
  · intro rec e hint
    simp only [db_entry_internalize, db_entry_internalize_trim,
      Option.bind_eq_some] at hint
    obtain ⟨cd, _hcd, hint⟩ := hint
    obtain ⟨ad, _had, hint⟩ := hint
    obtain ⟨rd, _hrd, hint⟩ := hint
    have he := (Option.some.injEq .. |>.mp hint).symm
    rw [he]
    exact ⟨optStrTrim_ne_empty _, optStrTrim_ne_empty _⟩

/-- C5: `db_entry_get` errors out exactly when several entries carry the
url and otherwise returns the first match if any; `db_entry_add` fails
with a duplicate-url error whenever some entry already has the url, and
with a fresh url yields exactly one new entry bearing the generated id. -/
theorem C5_url_uniqueness :
    (∀ (db : List Entry) (url : String),
      1 < (db.filter (fun e => e.url == url)).length →
      db_entry_get db url = Except.error
        ("Internal Error: found multiple matching entries for url " ++ url)) ∧
    (∀ (db : List Entry) (url : String),
      ¬1 < (db.filter (fun e => e.url == url)).length →
      db_entry_get db url =
        Except.ok (db.filter (fun e => e.url == url)).head?) ∧
    (∀ (db : List Entry) (url : String) (title : Option String)
      (tags : Option (List String)) (extended : Option String)
      (new_id : String) (now_usec : Int) (fetched_title : String),
      (db.filter (fun e => e.url == url)).length = 1 →
      db_entry_add db url title tags extended new_id now_usec fetched_title =
        Except.error ("Error: entry already exists for url " ++ url)) ∧
    (∀ (db : List Entry) (url : String) (title : Option String)
      (tags : Option (List String)) (extended : Option String)
      (new_id : String) (now_usec : Int) (fetched_title : String),
      (∃ e ∈ db, e.url = url) →
      ∃ msg, db_entry_add db url title tags extended new_id now_usec
        fetched_title = Except.error msg) ∧
    (∀ (db : List Entry) (url : String) (title : Option String)
      (tags : Option (List String)) (extended : Option String)
      (new_id : String) (now_usec : Int) (fetched_title : String),
      (∀ e ∈ db, ¬e.url = url) →
      db_entry_add db url title tags extended new_id now_usec fetched_title =
        Except.ok
          [{ id := new_id, url := url,
             title := match title with
               | some t => t
               | none => fetched_title,
             tags := List.insertionSort (fun a b => a ≤ b)
               (match tags with
                 | some ts => ts
                 | none => []).eraseDups,
             created_date := now_usec,
             extended := some (match extended with
               | some e => e
               | none => "") }]) := by
  have hget1 : ∀ (db : List Entry) (url : String),
      1 < (db.filter (fun e => e.url == url)).length →
      db_entry_get db url = Except.error
        ("Internal Error: found multiple matching entries for url " ++ url) := by
    intro db url h
    rw [db_entry_get]
    rw [if_pos h]
  have hget2 : ∀ (db : List Entry) (url : String),
      ¬1 < (db.filter (fun e => e.url == url)).length →
      db_entry_get db url =
        Except.ok (db.filter (fun e => e.url == url)).head? := by
    intro db url h
    rw [db_entry_get]
    rw [if_neg h]
  refine ⟨hget1, hget2, ?_, ?_, ?_⟩
  · intro db url title tags extended new_id now_usec fetched_title h
    obtain ⟨x, hx⟩ := List.length_eq_one.mp h
    rw [db_entry_add.eq_def, hget2 db url (by rw [h]; decide), hx]
    rfl
  · intro db url title tags extended new_id now_usec fetched_title h
    obtain ⟨e, he, heq⟩ := h
    have hmem : e ∈ db.filter (fun e => e.url == url) :=
      List.mem_filter.mpr ⟨he, by simp [heq]⟩
    have hlen : 1 ≤ (db.filter (fun e => e.url == url)).length :=
      List.length_pos.mpr (List.ne_nil_of_mem hmem)
    by_cases h2 : 1 < (db.filter (fun e => e.url == url)).length
    · refine ⟨"Internal Error: found multiple matching entries for url "
        ++ url, ?_⟩
      rw [db_entry_add.eq_def, hget1 db url h2]
    · obtain ⟨x, hx⟩ := List.length_eq_one.mp
        (Nat.le_antisymm (Nat.not_lt.mp h2) hlen)
      refine ⟨"Error: entry already exists for url " ++ url, ?_⟩
      rw [db_entry_add.eq_def, hget2 db url h2, hx]
      rfl
  · intro db url title tags extended new_id now_usec fetched_title h
    have hfilter : db.filter (fun e => e.url == url) = [] := by
      rw [List.filter_eq_nil_iff]
      intro e he
      simp [h e he]
    rw [db_entry_add.eq_def, hget2 db url (by rw [hfilter]; simp), hfilter]
    rfl


/-- C6 (amended): the non-`all_fields` edit document holds exactly the
required fields `id`, `url`, `title`, `tags`, `created_date` in order —
`DB_ENTRY_USEREDIT_FIELDS` is a deep copy of the required-field list, so
`id` is included — with `created_date` formatted at local time. -/
theorem C6_editdoc_fields (entry : Entry) (local_offset : Int) :
    db_entry_to_editdoc entry false local_offset =
      [("id", EVal.vstr entry.id), ("url", EVal.vstr entry.url),
       ("title", EVal.vstr entry.title), ("tags", EVal.vtags entry.tags),
       ("created_date", EVal.vstr (pyStrftime EDITDOC_DATETIME_FORMAT
         local_offset entry.created_date))] := rfl

/-- C7 (amended): dict-level `db_entry_externalize` rewrites only the
three date fields of its argument, in place: the key sequence is preserved
and every non-date key still maps to its original value; the argument
itself, however, is mutated (see the counterexample) — callers that need
the original pass a `copy.deepcopy` as `db_save_db` does. -/
theorem C7_externalize_doc_frame :
    (∀ (entry : EntryDoc) (datetime_format : String)
      (datetime_as_local : Bool) (local_offset : Int),
      (db_entry_externalize_doc entry datetime_format datetime_as_local
        local_offset).map Prod.fst = entry.map Prod.fst) ∧
    (∀ (entry : EntryDoc) (datetime_format : String)
      (datetime_as_local : Bool) (local_offset : Int) (k : String),
      ¬k = "created_date" → ¬k = "archived_date" → ¬k = "removed_date" →
      (db_entry_externalize_doc entry datetime_format datetime_as_local
        local_offset).lookup k = entry.lookup k) := by
  constructor
  · intro entry fmt al off
    rw [db_entry_externalize_doc, List.map_map]
    refine List.map_congr_left fun kv _hkv => ?_
    by_cases h : kv.1 = "created_date" ∨ kv.1 = "archived_date" ∨
        kv.1 = "removed_date"
    · rw [Function.comp_apply, if_pos h]
      rcases kv with ⟨k, v⟩
      rcases v with s | ts | b | usec <;> rfl
    · rw [Function.comp_apply, if_neg h]
  · intro entry fmt al off k h1 h2 h3
    induction entry with
    | nil => rfl
    | cons kv rest ih =>
      rw [db_entry_externalize_doc, List.map_cons]
      by_cases h : kv.1 = "created_date" ∨ kv.1 = "archived_date" ∨
          kv.1 = "removed_date"
      · rw [if_pos h]
        have hk : ¬k = kv.1 := by
          rcases h with h | h | h <;> rw [h]
          · exact h1
          · exact h2
          · exact h3
        rcases kv with ⟨k2, v⟩
        rcases v with s | ts | b | usec <;>
          simp only [List.lookup] <;>
          rw [show (k == k2) = false from beq_eq_false_iff_ne.mpr hk] <;>
          exact ih
      · rw [if_neg h]
        rcases kv with ⟨k2, v⟩
        simp only [List.lookup]
        by_cases hk : k == k2
        · rw [hk]
        · rw [Bool.not_eq_true] at hk
          rw [hk]
          exact ih

/-- C3 counterexample: the persisted format carries no sub-second field,
so a creation instant half a second past the epoch internalizes back to
the epoch itself: the round trip does not reproduce `created_date`
exactly on every valid entry. -/
theorem C3_roundtrip_counterexample :
    (db_entry_internalize
        (db_entry_externalize entryMicro DB_DATETIME_FORMAT false 0)
        DB_DATETIME_FORMAT).map Entry.created_date = some 0 ∧
    ¬entryMicro.created_date = 0 := by
  refine ⟨rfl, by decide⟩

/-- Witness for C3: the round trip evaluated on `entrySec` at local offset
`+90` minutes. -/
theorem C3_roundtrip_witness :
    db_entry_internalize
      (db_entry_externalize entrySec DB_DATETIME_FORMAT true 90)
      DB_DATETIME_FORMAT =
      some { entrySec with
        extended := optStrTrim entrySec.extended,
        removed_reason := optStrTrim entrySec.removed_reason } :=
  C3_roundtrip entrySec true 90 (by decide)
    ⟨by decide, by decide, by decide⟩
    (fun a ha => by
      have h2 := Option.some.inj
        (show some (86400000000 : Int) = some a from ha)
      subst h2
      exact ⟨by decide, by decide, by decide⟩)
    (fun r hr =>
      Option.noConfusion (show (none : Option Int) = some r from hr))

/-- C4 counterexample: `db_entry_add` without an editor round-trip sets
`extended` to the empty string, and `db_save_db` persists it as such: an
empty optional string does reach the persisted file. -/
theorem C4_save_optional_strings_counterexample :
    db_entry_add [] "http://x/" (some "T") none none "id1" 0 "" =
      Except.ok [entryNoEdit] ∧
    (db_save_db [entryNoEdit]).map ExtEntry.extended = [some ""] := by
  refine ⟨rfl, by decide⟩

/-- Witness for C4: the persisted record of `entryA` has no empty optional
string. -/
theorem C4_save_optional_strings_witness :
    ¬(db_entry_externalize entryA DB_DATETIME_FORMAT false 0).extended =
        some "" ∧
    ¬(db_entry_externalize entryA DB_DATETIME_FORMAT false
        0).removed_reason = some "" ∧
    ¬(db_entry_externalize entryA DB_DATETIME_FORMAT false
        0).archived_date = some "" ∧
    ¬(db_entry_externalize entryA DB_DATETIME_FORMAT false 0).removed_date =
        some "" :=
  C4_save_optional_strings.1 [entryA] (by decide)
    (db_entry_externalize entryA DB_DATETIME_FORMAT false 0) (by decide)

/-- Witness for C5: a double match errors, a duplicate url is rejected,
and a fresh url yields the single new entry. -/
theorem C5_url_uniqueness_witness :
    db_entry_get [entryA, entryA] "http://a/" =
      Except.error ("Internal Error: found multiple matching entries for url "
        ++ "http://a/") ∧
    db_entry_add [entryA] "http://a/" none none none "n1" 0 "" =
      Except.error ("Error: entry already exists for url " ++ "http://a/") ∧
    db_entry_add [entryA] "http://b/" (some "T") none none "n1" 5 "" =
      Except.ok [{ id := "n1", url := "http://b/", title := "T", tags := [],
                   created_date := 5, extended := some "" }] :=
  ⟨C5_url_uniqueness.1 [entryA, entryA] "http://a/" (by decide),
   C5_url_uniqueness.2.2.1 [entryA] "http://a/" none none none "n1" 0 ""
     (by decide),
   C5_url_uniqueness.2.2.2.2 [entryA] "http://b/" (some "T") none none "n1"
     5 "" (by decide)⟩

/-- C6 counterexample: the non-`all_fields` edit document of `entryA` does
contain the `id` field — its key sequence is the full required-field
list, not the id-free subset. -/
theorem C6_editdoc_counterexample :
    (db_entry_to_editdoc entryA false 0).map Prod.fst =
      ["id", "url", "title", "tags", "created_date"] ∧
    ("id", EVal.vstr "a1") ∈ db_entry_to_editdoc entryA false 0 := by
  decide

/-- C7 counterexample: the post-state of the argument dict differs from
its pre-state — the date fields are reassigned in place, so externalize
does mutate its input. -/
theorem C7_externalize_doc_frame_counterexample :
    ¬db_entry_externalize_doc docSample DB_DATETIME_FORMAT false 0 =
      docSample := by
  decide

/-- Witness for C7: on `docSample` the key sequence is preserved and the
non-date key `url` keeps its value. -/
theorem C7_externalize_doc_frame_witness :
    (db_entry_externalize_doc docSample DB_DATETIME_FORMAT false 0).map
        Prod.fst = docSample.map Prod.fst ∧
    (db_entry_externalize_doc docSample DB_DATETIME_FORMAT false
        0).lookup "url" = docSample.lookup "url" :=
  ⟨C7_externalize_doc_frame.1 docSample DB_DATETIME_FORMAT false 0,
   C7_externalize_doc_frame.2 docSample DB_DATETIME_FORMAT false 0 "url"
     (by decide) (by decide) (by decide)⟩
